import Mathlib

/-!
Shallow embedding of the bosminer work-distribution and solution-routing core
(`work.rs`, `hub.rs`, `test_utils.rs`, `test_utils/block_mining.rs`, `hal.rs`).

Modelling conventions:
* Rust machine integers (`u32`, `usize`) are `Nat`; a cast `x as u32` is `x % 2^32`.
* `Arc<T>` is plain ownership of the value; `Weak<T>` is `Option T`
  (`upgrade` succeeds exactly when the option is `some`).
* A Rust `panic!` / failed `expect` is `Except.error msg` (or `Option.none`
  where the surrounding claim talks only about panic-freedom).
* External crate values (`ii_bitcoin::DHash`, `ii_bitcoin::Target`,
  `ii_bitcoin::Midstate`, node identities) are opaque and modelled as `Nat`;
  external hash computations are passed in as explicit function arguments,
  since their internals are outside this core.
* The tokio `watch` channel (tokio 0.2): a single-slot last-value-wins cell;
  `Sender::broadcast` replaces the slot and fails when every receiver is gone.
-/

namespace Bosminer

/-- Identity of a `node::Client` (trait object behind `Weak<dyn node::Client>`);
only its identity is observable from this core. -/
structure Client where
  id : Nat
deriving DecidableEq, Repr

/-- Embeds `job::Bitcoin` capability set (external trait consumed by this core):
version, version-rolling mask, previous hash, merkle root, time, bits, target,
validity, and the weak origin back-reference (`Weak` modelled as `Option`). -/
structure Job where
  version : Nat
  version_mask : Nat
  previous_hash : Nat
  merkle_root : Nat
  time : Nat
  bits : Nat
  target : Nat
  is_valid : Bool
  origin : Option Client
deriving DecidableEq, Repr

/-- Embeds `work::Midstate` from work.rs: version used for the midstate plus the
precomputed SHA256 state (opaque external value, modelled as `Nat`). -/
structure Midstate where
  version : Nat
  state : Nat
deriving DecidableEq, Repr

/-- Embeds `work::Assignment` from work.rs: routing path (node identities), the shared
job, the midstates and the ntime value. -/
structure Assignment where
  path : List Nat
  job : Job
  midstates : List Midstate
  ntime : Nat
deriving DecidableEq, Repr

/-- Embeds `Assignment::new` from work.rs: the path starts empty. -/
def Assignment.new (job : Job) (midstates : List Midstate) (ntime : Nat) : Assignment :=
  { path := [], job := job, midstates := midstates, ntime := ntime }

/-- Embeds `ii_bitcoin::BlockHeader` as consumed by `Solution::get_block_header` and
`Problem::into_work` (hash fields opaque `Nat`). -/
structure BlockHeader where
  version : Nat
  previous_hash : Nat
  merkle_root : Nat
  time : Nat
  bits : Nat
  nonce : Nat
deriving DecidableEq, Repr

instance : Inhabited BlockHeader :=
  ⟨{ version := 0, previous_hash := 0, merkle_root := 0, time := 0, bits := 0, nonce := 0 }⟩

/-- Embeds `hal::BackendSolution` capability set from hal.rs: nonce, midstate index,
solution index and the backend target. -/
structure BackendSolution where
  nonce : Nat
  midstate_idx : Nat
  solution_idx : Nat
  target : Nat
deriving DecidableEq, Repr

/-- Embeds `work::Solution` from work.rs. Each `OnceCell` field is modelled as an
`Option` holding the cached value (`none` = not yet computed). The timestamp
is irrelevant to every claim and is dropped. -/
structure Solution where
  work : Assignment
  solution : BackendSolution
  hashCell : Option Nat
  job_targetCell : Option Nat
  backend_targetCell : Option Nat
deriving DecidableEq, Repr

/-- Embeds `Solution::new` from work.rs: all three memoization cells start empty. -/
def Solution.new (work : Assignment) (solution : BackendSolution) : Solution :=
  { work := work, solution := solution,
    hashCell := none, job_targetCell := none, backend_targetCell := none }

/-- Embeds `Solution::origin` from work.rs: the weak origin of the underlying job. -/
def Solution.origin (s : Solution) : Option Client :=
  s.work.job.origin

/-- Embeds `Solution::midstate_idx` from work.rs: forwarded from the backend solution. -/
def Solution.midstate_idx (s : Solution) : Nat :=
  s.solution.midstate_idx

/-- Embeds `Solution::nonce` from work.rs. -/
def Solution.nonce (s : Solution) : Nat :=
  s.solution.nonce

/-- Embeds `Solution::time` from work.rs. -/
def Solution.time (s : Solution) : Nat :=
  s.work.ntime

/-- Embeds `Solution::version` from work.rs: `self.work.midstates[i].version` with
`i = self.midstate_idx()`. The Rust indexing panics when `i` is out of range;
`none` models that panic. -/
def Solution.version (s : Solution) : Option Nat :=
  (s.work.midstates[s.midstate_idx]?).map Midstate.version

/-- Embeds `Solution::get_block_header` from work.rs; `none` models the panic
propagated from the out-of-range indexing inside `version()`. -/
def Solution.get_block_header (s : Solution) : Option BlockHeader :=
  (s.version).map (fun v =>
    { version := v
      previous_hash := s.work.job.previous_hash
      merkle_root := s.work.job.merkle_root
      time := s.time
      bits := s.work.job.bits
      nonce := s.nonce })

/-- Embeds `Solution::hash` from work.rs: `self.hash.get_or_init(|| self.get_block_header().hash())`.
`dhash` is the external `ii_bitcoin::BlockHeader::hash` double-SHA256.
Returns the value, the updated cell state, and how many times the underlying
computation ran during this call; `none` models the panic inside the
initializer. -/
def Solution.hash (dhash : BlockHeader → Nat) (s : Solution) :
    Option (Nat × Solution × Nat) :=
  match s.hashCell with
  | some v => some (v, s, 0)
  | none =>
    (s.get_block_header).map (fun bh =>
      let v := dhash bh
      (v, { s with hashCell := some v }, 1))

/-- Embeds `Solution::job_target` from work.rs:
`self.job_target.get_or_init(|| self.work.job.target())`. -/
def Solution.job_target (s : Solution) : Nat × Solution × Nat :=
  match s.job_targetCell with
  | some v => (v, s, 0)
  | none =>
    let v := s.work.job.target
    (v, { s with job_targetCell := some v }, 1)

/-- Embeds `Solution::backend_target` from work.rs:
`self.backend_target.get_or_init(|| *self.solution.target())`. -/
def Solution.backend_target (s : Solution) : Nat × Solution × Nat :=
  match s.backend_targetCell with
  | some v => (v, s, 0)
  | none =>
    let v := s.solution.target
    (v, { s with backend_targetCell := some v }, 1)

/-- Embeds `Solution::path` from work.rs: when the job origin is still alive its
identity is prepended to the assignment path, otherwise the assignment path is
returned unchanged. -/
def Solution.path (s : Solution) : List Nat :=
  match s.work.job.origin with
  | some origin => origin.id :: s.work.path
  | none => s.work.path

/-- Replace the origin of the job inside a solution (used to relate a solution
before and after its origin client is dropped; every other field is shared). -/
def Solution.withOrigin (s : Solution) (o : Option Client) : Solution :=
  { s with work := { s.work with job := { s.work.job with origin := o } } }

/-- Embeds `work::LoopState` from work.rs. -/
inductive LoopState (T : Type) where
  | Exhausted : LoopState T
  | Break : T → LoopState T
  | Continue : T → LoopState T
deriving DecidableEq, Repr

/-! ### EngineChannel: `EngineSender` / `EngineReceiver` (work.rs)

A `DynEngine` (`Arc<dyn Engine>`) is observed by the channel code only through
its identity and its `is_exhausted()` answer at the moment of the check, so it
is modelled as an identity plus that boolean snapshot.  The tokio 0.2 `watch`
channel is a single-slot last-value-wins cell; `Sender::broadcast` overwrites
the slot and errors once every receiver has been dropped. -/

/-- Opaque `DynEngine`: identity plus the `is_exhausted()` observation. -/
structure DynEngine where
  id : Nat
  exhausted : Bool
deriving DecidableEq, Repr

/-- Embeds `engine::ExhaustedWork` sentinel: `is_exhausted()` is always true. -/
def ExhaustedWork : DynEngine :=
  { id := 0, exhausted := true }

/-- State of one tokio `watch` channel: the single latest-value slot and
whether at least one receiver is still alive (`broadcast` fails otherwise). -/
structure WatchState where
  latest : DynEngine
  receiver_alive : Bool
deriving DecidableEq, Repr

/-- The collection of watch channels, indexed by channel identity. -/
def Channels : Type := Nat → WatchState

/-- Embeds `EngineSenderInner` from work.rs: the optional engine generator, the
current engine, and the optionally held watch sender endpoint (identified by
its channel id). -/
structure EngineSenderInner where
  engine_generator : Option (Job → DynEngine)
  current_engine : DynEngine
  sender : Option Nat

/-- Embeds `EngineSenderInner::re_broadcast` from work.rs: when a sender endpoint is
held, push `current_engine` into its watch slot;
`expect("cannot broadcast work engine")` panics when all receivers are gone. -/
def EngineSenderInner.re_broadcast (inner : EngineSenderInner) (chans : Channels) :
    Except String Channels :=
  match inner.sender with
  | none => .ok chans
  | some cid =>
    if (chans cid).receiver_alive then
      .ok (fun c => if c = cid then { chans c with latest := inner.current_engine } else chans c)
    else
      .error "cannot broadcast work engine"

/-- Embeds `EngineSenderInner::broadcast_engine` from work.rs: install the engine as
current, then re-broadcast. -/
def EngineSenderInner.broadcast_engine (inner : EngineSenderInner) (chans : Channels)
    (engine : DynEngine) : Except String (EngineSenderInner × Channels) :=
  let inner := { inner with current_engine := engine }
  (inner.re_broadcast chans).map (fun chans => (inner, chans))

/-- Embeds `EngineSenderInner::broadcast_job` from work.rs: apply the engine
generator to the job and broadcast the produced engine;
`expect("BUG: missing engine generator")` panics when none is configured. -/
def EngineSenderInner.broadcast_job (inner : EngineSenderInner) (chans : Channels)
    (job : Job) : Except String (EngineSenderInner × Channels) :=
  match inner.engine_generator with
  | none => .error "BUG: missing engine generator"
  | some gen => inner.broadcast_engine chans (gen job)

/-- Embeds `EngineSenderInner::invalidate` from work.rs: reset the current engine to
the `ExhaustedWork` sentinel and re-broadcast. -/
def EngineSenderInner.invalidate (inner : EngineSenderInner) (chans : Channels) :
    Except String (EngineSenderInner × Channels) :=
  let inner := { inner with current_engine := ExhaustedWork }
  (inner.re_broadcast chans).map (fun chans => (inner, chans))

/-- Embeds `EngineSender::create` from work.rs: the initial engine generator is
`Some(|_| ExhaustedWork)`. -/
def EngineSender.create (current_engine : DynEngine) (sender : Option Nat) :
    EngineSenderInner :=
  { engine_generator := some (fun _ => ExhaustedWork)
    current_engine := current_engine
    sender := sender }

/-- Embeds `EngineSender::swap_sender` from work.rs.  `samePtr` models
`std::ptr::eq(self, other)`; the `assert!` on it panics.  Otherwise only the
two `sender` endpoints are exchanged and both sides re-broadcast their own
current engine on the newly acquired endpoint. -/
def EngineSender.swap_sender (a b : EngineSenderInner) (samePtr : Bool)
    (chans : Channels) : Except String (EngineSenderInner × EngineSenderInner × Channels) :=
  if samePtr then
    .error "BUG: swapping the same engine sender"
  else
    let a2 := { a with sender := b.sender }
    let b2 := { b with sender := a.sender }
    match a2.re_broadcast chans with
    | .error e => .error e
    | .ok chans =>
      match b2.re_broadcast chans with
      | .error e => .error e
      | .ok chans => .ok (a2, b2, chans)

/-- Embeds `EngineReceiver::get_engine` from work.rs.  `current` is the value seen by
the initial `borrow()`; `updates` is the finite sequence of values that
`watch_receiver.next()` yields before the channel closes (all senders
dropped).  The loop returns the first non-exhausted value it observes, and
`none` (the Rust `None`) exactly when the stream ends first. -/
def EngineReceiver.get_engine (current : DynEngine) (updates : List DynEngine) :
    Option DynEngine :=
  if !current.exhausted then
    some current
  else
    match updates with
    | [] => none
    | v :: rest => EngineReceiver.get_engine v rest

/-! ### Test work engines (test_utils.rs) -/

/-- Embeds `ii_bitcoin::TestBlock` restricted to the fields read by this core
(via the `job::Bitcoin` impl in test_utils.rs and the conversions below). -/
structure TestBlock where
  version : Nat
  previous_hash : Nat
  merkle_root : Nat
  time : Nat
  bits : Nat
  target : Nat
  nonce : Nat
  midstate : Nat
deriving DecidableEq, Repr

/-- The static `TEST_CLIENT` from test_utils.rs. -/
def TEST_CLIENT : Client := { id := 0 }

/-- Embeds `impl job::Bitcoin for TestBlock` from test_utils.rs: version mask 0,
always valid, origin is a weak reference to `TEST_CLIENT`. -/
def TestBlock.toJob (b : TestBlock) : Job :=
  { version := b.version
    version_mask := 0
    previous_hash := b.previous_hash
    merkle_root := b.merkle_root
    time := b.time
    bits := b.bits
    target := b.target
    is_valid := true
    origin := some TEST_CLIENT }

/-- Embeds `impl From<&TestBlock> for work::Assignment` from test_utils.rs: one
midstate carrying the job version and the precomputed block midstate. -/
def TestBlock.toAssignment (b : TestBlock) : Assignment :=
  Assignment.new b.toJob [{ version := b.toJob.version, state := b.midstate }] b.toJob.time

/-- Embeds `OneWorkEngineInner` from test_utils.rs: holds at most one assignment. -/
structure OneWorkEngineInner where
  work : Option Assignment
deriving DecidableEq, Repr

/-- Embeds `OneWorkEngineInner::is_exhausted` from test_utils.rs. -/
def OneWorkEngineInner.is_exhausted (e : OneWorkEngineInner) : Bool :=
  e.work.isNone

/-- Embeds `OneWorkEngineInner::terminate` from test_utils.rs. -/
def OneWorkEngineInner.terminate (_e : OneWorkEngineInner) : OneWorkEngineInner :=
  { work := none }

/-- Embeds `OneWorkEngineInner::next_work` from test_utils.rs: `self.work.take()`
yields `Break(work)` once and leaves the engine empty, then `Exhausted`. -/
def OneWorkEngineInner.next_work (e : OneWorkEngineInner) :
    LoopState Assignment × OneWorkEngineInner :=
  match e.work with
  | some work => (.Break work, { work := none })
  | none => (.Exhausted, { work := none })

/-- Embeds `OneWorkEngine::new` from test_utils.rs. -/
def OneWorkEngine.new (work : Assignment) : OneWorkEngineInner :=
  { work := some work }

/-- Embeds `TestWorkEngineInner` from test_utils.rs: the one-element lookahead
(`next_test_block`) plus the remaining iterator over `TEST_BLOCKS`. -/
structure TestWorkEngineInner where
  next_test_block : Option TestBlock
  test_block_iter : List TestBlock
deriving DecidableEq, Repr

/-- Embeds `TestWorkEngineInner::is_exhausted` from test_utils.rs. -/
def TestWorkEngineInner.is_exhausted (e : TestWorkEngineInner) : Bool :=
  e.next_test_block.isNone

/-- Embeds `TestWorkEngineInner::terminate` from test_utils.rs. -/
def TestWorkEngineInner.terminate (e : TestWorkEngineInner) : TestWorkEngineInner :=
  { e with next_test_block := none }

/-- Embeds `TestWorkEngineInner::next_work` from test_utils.rs.  When not exhausted,
`iter.next()` returning `None` produces `Break(next_test_block.take())` and
leaves the lookahead empty; returning `Some(block)` produces
`Continue(next_test_block.replace(block))`.  The expect call inside `map`
(which would panic on a missing test block) cannot fire because the lookahead
is `Some` on every non-exhausted entry, which the `match` on
`e.next_test_block` makes explicit. -/
def TestWorkEngineInner.next_work (e : TestWorkEngineInner) :
    LoopState Assignment × TestWorkEngineInner :=
  match e.next_test_block with
  | none => (.Exhausted, e)
  | some cur =>
    match e.test_block_iter with
    | [] => (.Break cur.toAssignment, { next_test_block := none, test_block_iter := [] })
    | b :: rest => (.Continue cur.toAssignment, { next_test_block := some b, test_block_iter := rest })

/-- Embeds `TestWorkEngine::new` from test_utils.rs: prime the lookahead with the
first element of the block list. -/
def TestWorkEngine.new (blocks : List TestBlock) : TestWorkEngineInner :=
  match blocks with
  | [] => { next_test_block := none, test_block_iter := [] }
  | b :: rest => { next_test_block := some b, test_block_iter := rest }

/-- Iterate `next_work` on a `OneWorkEngineInner`, collecting the n-th result. -/
def OneWorkEngineInner.next_workN (e : OneWorkEngineInner) : Nat → LoopState Assignment × OneWorkEngineInner
  | 0 => e.next_work
  | n + 1 => (e.next_work).2.next_workN n

/-- Iterate `next_work` on a `TestWorkEngineInner`, collecting the n-th result. -/
def TestWorkEngineInner.next_workN (e : TestWorkEngineInner) : Nat → LoopState Assignment × TestWorkEngineInner
  | 0 => e.next_work
  | n + 1 => (e.next_work).2.next_workN n

/-! ### `Problem::into_work` (test_utils/block_mining.rs) -/

/-- Embeds `Problem` from block_mining.rs, restricted to what `into_work` reads:
`model_solution_job` is the `TestBlock` obtained by
`self.model_solution.job::<test_utils::TestBlock>()`, and the target midstate
index. -/
structure Problem where
  model_solution_job : TestBlock
  target_midstate : Nat
deriving DecidableEq, Repr

/-- Embeds `Problem::into_work` from block_mining.rs.  `midstateFn` is the external
`ii_bitcoin::BlockHeader::midstate` computation.  For each `index` in
`0..midstate_count` the version is
`correct_version ^ (index as u32) ^ (target_midstate as u32)` (a `usize` cast
to `u32` truncates, hence `% 2^32`), and a midstate of `block_chunk1` with
that version is pushed. -/
def Problem.into_work (midstateFn : BlockHeader → Nat) (p : Problem)
    (midstate_count : Nat) : Assignment :=
  let job := p.model_solution_job
  let time := job.time
  let correct_version := job.version
  let block_chunk1 : BlockHeader :=
    { (default : BlockHeader) with
      previous_hash := job.previous_hash
      merkle_root := job.merkle_root }
  let midstates := (List.range midstate_count).map (fun index =>
    let version := correct_version ^^^ (index % 2 ^ 32) ^^^ (p.target_midstate % 2 ^ 32)
    { version := version
      state := midstateFn { block_chunk1 with version := version } : Midstate })
  Assignment.new job.toJob midstates time

/-! ### SolutionRouter and Core (hub.rs) -/

/-- One observable action of `SolutionRouter::run` per dequeued solution. -/
inductive RouterEvent where
  | delivered : Nat → Solution → RouterEvent
  | discarded : Solution → RouterEvent
deriving DecidableEq, Repr

/-- Embeds `SolutionRouter::run` from hub.rs, as a function of the finite sequence of
solutions the queue yields before it closes (all producers gone — the
`while let Some(..) = next().await` loop ends exactly then).

`resolve` models `JobExecutor::get_solution_sender` (client.rs is not part of
the sources here; modelled from the spec: it resolves the origin client of
the solution through the weak back-reference and returns the sink of that
client while the client exists, `none` once it is gone), as a sink identity.
`sinkClosed` tells whether `unbounded_send` into a sink fails (its receiver was
dropped); the `expect("solution queue send failed")` on that failure panics. -/
def SolutionRouter.run (resolve : Solution → Option Nat) (sinkClosed : Nat → Bool) :
    List Solution → Except String (List RouterEvent)
  | [] => .ok []
  | s :: rest =>
    match resolve s with
    | some sink =>
      if sinkClosed sink then
        .error "solution queue send failed"
      else
        (SolutionRouter.run resolve sinkClosed rest).map (RouterEvent.delivered sink s :: ·)
    | none =>
      (SolutionRouter.run resolve sinkClosed rest).map (RouterEvent.discarded s :: ·)

/-- Modelled from the spec: `backend::Registry` (backend.rs is not among the
sources).  Per spec §3 it holds an optional root hub reference and two ordered
collections (all hubs, all solvers), each node an opaque
`Arc<dyn node::WorkSolver>` modelled by its identity. -/
structure Registry where
  root_hub : Option Nat
  work_hubs : List Nat
  work_solvers : List Nat
deriving DecidableEq, Repr

/-- Embeds `Core::get_root_hub` from hub.rs: `self.backend_registry.upgrade()?` makes
a dead weak registry yield `none`; otherwise the locked root hub is cloned.
The weak reference is modelled as `Option Registry`. -/
def Core.get_root_hub (backend_registry : Option Registry) : Option Nat :=
  match backend_registry with
  | none => none
  | some reg => reg.root_hub

/-- Embeds `Core::get_work_hubs` from hub.rs: a dead weak registry yields `vec![]`;
otherwise the hub list is copied (`iter().cloned().collect()`). -/
def Core.get_work_hubs (backend_registry : Option Registry) : List Nat :=
  match backend_registry with
  | none => []
  | some reg => reg.work_hubs

/-- Embeds `Core::get_work_solvers` from hub.rs: a dead weak registry yields
`vec![]`; otherwise the solver list is copied. -/
def Core.get_work_solvers (backend_registry : Option Registry) : List Nat :=
  match backend_registry with
  | none => []
  | some reg => reg.work_solvers

/-! ### Concrete fixtures (used to instantiate theorems at explicit inputs) -/

/-- A concrete test block. -/
def sampleBlock : TestBlock :=
  { version := 2, previous_hash := 3, merkle_root := 4, time := 5, bits := 6,
    target := 7, nonce := 8, midstate := 9 }

/-- A concrete backend solution reporting midstate index 0. -/
def sampleBackendSolution : BackendSolution :=
  { nonce := 11, midstate_idx := 0, solution_idx := 0, target := 13 }

/-- A concrete fresh solution whose assignment has exactly one midstate. -/
def sampleSolution : Solution :=
  Solution.new sampleBlock.toAssignment sampleBackendSolution

/-! ## Theorems -/

/-- C2: each of the three memoized accessors of a `Solution` performs its
underlying computation at most once per instance: a call performs at most one
computation, and once a call has produced a value, any further call on the
resulting instance returns that identical stored value with zero further
computations. -/
theorem Solution.memoized_accessors_once (dhash : BlockHeader → Nat) (s : Solution)
    (v1 : Nat) (s1 : Solution) (n1 : Nat) (h : s.hash dhash = some (v1, s1, n1)) :
    (s1.hash dhash = some (v1, s1, 0) ∧ n1 ≤ 1) ∧
    ((s.job_target.2.1).job_target = (s.job_target.1, s.job_target.2.1, 0) ∧
      s.job_target.2.2 ≤ 1) ∧
    ((s.backend_target.2.1).backend_target =
        (s.backend_target.1, s.backend_target.2.1, 0) ∧
      s.backend_target.2.2 ≤ 1) := by
  refine ⟨?_, ?_, ?_⟩
  · cases hc : s.hashCell with
    | some v =>
      simp only [Solution.hash, hc, Option.some.injEq, Prod.mk.injEq] at h
      obtain ⟨hv, hs, hn⟩ := h
      subst hv; subst hs; subst hn
      simp [Solution.hash, hc]
    | none =>
      rw [Solution.hash, hc, Option.map_eq_some'] at h
      obtain ⟨bh, hbh, heq⟩ := h
      simp only [Prod.mk.injEq] at heq
      obtain ⟨hv, hs, hn⟩ := heq
      subst hv; subst hn
      have hcell : s1.hashCell = some (dhash bh) := by
        rw [← hs]
      constructor
      · simp [Solution.hash, hcell, ← hs]
      · exact Nat.le_refl 1
  · cases hc : s.job_targetCell with
    | some v => simp [Solution.job_target, hc]
    | none => simp [Solution.job_target, hc]
  · cases hc : s.backend_targetCell with
    | some v => simp [Solution.backend_target, hc]
    | none => simp [Solution.backend_target, hc]

/-- Witness for C2 at a concrete fresh solution with dhash constantly 7. -/
theorem Solution.memoized_accessors_once_witness :
    ({ sampleSolution with hashCell := some 7 }.hash (fun _ => 7) =
        some (7, { sampleSolution with hashCell := some 7 }, 0) ∧ (1 : Nat) ≤ 1) ∧
    ((sampleSolution.job_target.2.1).job_target =
        (sampleSolution.job_target.1, sampleSolution.job_target.2.1, 0) ∧
      sampleSolution.job_target.2.2 ≤ 1) ∧
    ((sampleSolution.backend_target.2.1).backend_target =
        (sampleSolution.backend_target.1, sampleSolution.backend_target.2.1, 0) ∧
      sampleSolution.backend_target.2.2 ≤ 1) :=
  Solution.memoized_accessors_once (fun _ => 7) sampleSolution 7
    { sampleSolution with hashCell := some 7 } 1 (by decide)

/-- C4: the path of a Solution prepends the origin client exactly when the
weak origin can still be upgraded, and returns the stored assignment path
unchanged when the origin is gone; dropping the origin changes neither the
block header nor the hash value, so the solution stays comparable by hash. -/
theorem Solution.path_spec (s : Solution) (o : Client) :
    (s.work.job.origin = some o → s.path = o.id :: s.work.path) ∧
    (s.work.job.origin = none → s.path = s.work.path) ∧
    (s.withOrigin none).get_block_header = s.get_block_header ∧
    (∀ dhash : BlockHeader → Nat,
      ((s.withOrigin none).hash dhash).map (fun r => r.1) =
        (s.hash dhash).map (fun r => r.1)) := by
  have hbh : (s.withOrigin none).get_block_header = s.get_block_header := by
    simp [Solution.withOrigin, Solution.get_block_header, Solution.version,
      Solution.midstate_idx, Solution.time, Solution.nonce]
  refine ⟨?_, ?_, hbh, ?_⟩
  · intro h
    simp [Solution.path, h]
  · intro h
    simp [Solution.path, h]
  · intro dhash
    have hcell : (s.withOrigin none).hashCell = s.hashCell := rfl
    cases hc : s.hashCell with
    | some v =>
      simp [Solution.hash, Solution.withOrigin, hc]
    | none =>
      rw [Solution.hash, Solution.hash, hcell, hc, hbh]
      cases s.get_block_header with
      | none => simp
      | some bh => simp

/-- Witness for C4 at a concrete solution whose origin is the test client,
and the same solution with its origin dropped. -/
theorem Solution.path_spec_witness :
    sampleSolution.path = TEST_CLIENT.id :: sampleSolution.work.path ∧
    (sampleSolution.withOrigin none).path = (sampleSolution.withOrigin none).work.path ∧
    ((sampleSolution.withOrigin none).hash (fun _ => 7)).map (fun r => r.1) =
      (sampleSolution.hash (fun _ => 7)).map (fun r => r.1) :=
  ⟨(Solution.path_spec sampleSolution TEST_CLIENT).1 (by decide),
    (Solution.path_spec (sampleSolution.withOrigin none) TEST_CLIENT).2.1 (by decide),
    (Solution.path_spec sampleSolution TEST_CLIENT).2.2.2 (fun _ => 7)⟩

/-- C10: version(), get_block_header() and hash() index the midstates of the
assignment with the backend-reported midstate index; they are panic-free when
the index is in range, and an out-of-range index makes all of them panic
(modelled as `none`) even on a fresh solution whose midstates are non-empty. -/
theorem Solution.version_panic_spec (s : Solution) :
    (s.midstate_idx < s.work.midstates.length →
      (∃ v, s.version = some v) ∧ (∃ bh, s.get_block_header = some bh) ∧
      ∀ dhash : BlockHeader → Nat, ∃ r, s.hash dhash = some r) ∧
    (s.work.midstates.length ≤ s.midstate_idx →
      s.version = none ∧ s.get_block_header = none ∧
      (s.hashCell = none → ∀ dhash : BlockHeader → Nat, s.hash dhash = none)) := by
  constructor
  · intro h
    have hv : s.version = some (s.work.midstates[s.midstate_idx].version) := by
      simp [Solution.version, List.getElem?_eq_getElem h]
    have hbh : s.get_block_header = some
        { version := s.work.midstates[s.midstate_idx].version
          previous_hash := s.work.job.previous_hash
          merkle_root := s.work.job.merkle_root
          time := s.time
          bits := s.work.job.bits
          nonce := s.nonce } := by
      simp [Solution.get_block_header, hv]
    refine ⟨⟨_, hv⟩, ⟨_, hbh⟩, ?_⟩
    intro dhash
    cases hc : s.hashCell with
    | some v => exact ⟨(v, s, 0), by simp [Solution.hash, hc]⟩
    | none =>
      exact ⟨_, by rw [Solution.hash, hc, hbh]; exact rfl⟩
  · intro h
    have hv : s.version = none := by
      simp [Solution.version, List.getElem?_eq_none h]
    refine ⟨hv, by simp [Solution.get_block_header, hv], ?_⟩
    intro hc dhash
    simp [Solution.hash, hc, Solution.get_block_header, hv]

/-- Witness for C10: the fresh sample solution (index 0, one midstate) is
panic-free, while the same assignment paired with a backend solution
reporting midstate index 5 panics in version() although its midstates vector
is non-empty. -/
theorem Solution.version_panic_spec_witness :
    (∃ v, sampleSolution.version = some v) ∧
    ((Solution.new sampleBlock.toAssignment
        { nonce := 11, midstate_idx := 5, solution_idx := 0, target := 13 }).version = none ∧
      (Solution.new sampleBlock.toAssignment
        { nonce := 11, midstate_idx := 5, solution_idx := 0, target := 13 }).get_block_header = none) :=
  ⟨((Solution.version_panic_spec sampleSolution).1 (by decide)).1,
    (((Solution.version_panic_spec (Solution.new sampleBlock.toAssignment
        { nonce := 11, midstate_idx := 5, solution_idx := 0, target := 13 })).2 (by decide)).1),
    (((Solution.version_panic_spec (Solution.new sampleBlock.toAssignment
        { nonce := 11, midstate_idx := 5, solution_idx := 0, target := 13 })).2 (by decide)).2.1)⟩

/-- C5: once a repository work engine (OneWorkEngine, TestWorkEngine) has
returned Break, every later next_work call returns Exhausted; neither Break
nor Continue is ever produced again. -/
theorem engine_break_terminal :
    (∀ (e : OneWorkEngineInner) (w : Assignment) (e1 : OneWorkEngineInner),
      e.next_work = (.Break w, e1) → ∀ n, (e1.next_workN n).1 = LoopState.Exhausted) ∧
    (∀ (e : TestWorkEngineInner) (w : Assignment) (e1 : TestWorkEngineInner),
      e.next_work = (.Break w, e1) → ∀ n, (e1.next_workN n).1 = LoopState.Exhausted) := by
  have hOne : ∀ n, ((⟨none⟩ : OneWorkEngineInner).next_workN n).1 = LoopState.Exhausted := by
    intro n
    induction n with
    | zero => rfl
    | succ n ih =>
      simpa [OneWorkEngineInner.next_workN, OneWorkEngineInner.next_work] using ih
  have hTest : ∀ n (e1 : TestWorkEngineInner), e1.next_test_block = none →
      ((e1.next_workN n)).1 = LoopState.Exhausted := by
    intro n
    induction n with
    | zero =>
      intro e1 h
      simp [TestWorkEngineInner.next_workN, TestWorkEngineInner.next_work, h]
    | succ n ih =>
      intro e1 h
      have hstep : e1.next_work = (LoopState.Exhausted, e1) := by
        simp [TestWorkEngineInner.next_work, h]
      simp only [TestWorkEngineInner.next_workN, hstep]
      exact ih e1 h
  constructor
  · intro e w e1 h
    cases hw : e.work with
    | none =>
      simp [OneWorkEngineInner.next_work, hw] at h
    | some w0 =>
      simp only [OneWorkEngineInner.next_work, hw, Prod.mk.injEq] at h
      obtain ⟨-, h2⟩ := h
      rw [← h2]
      exact hOne
  · intro e w e1 h
    cases hn : e.next_test_block with
    | none =>
      simp [TestWorkEngineInner.next_work, hn] at h
    | some cur =>
      cases hi : e.test_block_iter with
      | nil =>
        simp only [TestWorkEngineInner.next_work, hn, hi, Prod.mk.injEq] at h
        obtain ⟨-, h2⟩ := h
        intro n
        apply hTest
        rw [← h2]
      | cons b rest =>
        simp [TestWorkEngineInner.next_work, hn, hi] at h

/-- Witness for C5: concrete one-shot and list-driven engines queried after
their Break transition. -/
theorem engine_break_terminal_witness :
    ((({ work := none } : OneWorkEngineInner).next_workN 3).1 = LoopState.Exhausted) ∧
    ((({ next_test_block := none, test_block_iter := [] } : TestWorkEngineInner).next_workN 3).1 =
      LoopState.Exhausted) :=
  ⟨engine_break_terminal.1 (OneWorkEngine.new sampleBlock.toAssignment)
      sampleBlock.toAssignment { work := none } (by decide) 3,
    engine_break_terminal.2 (TestWorkEngine.new [sampleBlock])
      sampleBlock.toAssignment { next_test_block := none, test_block_iter := [] } (by decide) 3⟩

/-- Helper: while the receiver of the held watch endpoint is alive,
broadcast_engine installs the engine and overwrites the channel slot. -/
theorem EngineSenderInner.broadcast_engine_ok (inner : EngineSenderInner) (chans : Channels)
    (E : DynEngine) (cid : Nat) (hs : inner.sender = some cid)
    (hr : (chans cid).receiver_alive = true) :
    inner.broadcast_engine chans E =
      .ok ({ inner with current_engine := E },
        fun c => if c = cid then { chans c with latest := E } else chans c) := by
  simp [EngineSenderInner.broadcast_engine, EngineSenderInner.re_broadcast, hs, hr,
    Except.map]

/-- Helper: three broadcasts in a row succeed and leave the last engine as the
single retained channel value (last-value-wins coalescing of the watch slot). -/
theorem EngineSenderInner.broadcast_engine_three (inner : EngineSenderInner) (chans : Channels)
    (cid : Nat) (E1 E2 E3 : DynEngine) (hs : inner.sender = some cid)
    (hr : (chans cid).receiver_alive = true) :
    ((inner.broadcast_engine chans E1).bind (fun p =>
        p.1.broadcast_engine p.2 E2)).bind (fun p =>
        p.1.broadcast_engine p.2 E3) =
      .ok ({ inner with current_engine := E3 },
        fun c => if c = cid then { chans c with latest := E3 } else chans c) := by
  rw [EngineSenderInner.broadcast_engine_ok inner chans E1 cid hs hr]
  have hr1 : (((fun c =>
      if c = cid then { chans c with latest := E1 } else chans c) : Channels) cid).receiver_alive =
      true := by
    simpa using hr
  rw [show (((Except.ok ({ inner with current_engine := E1 },
        (fun c => if c = cid then { chans c with latest := E1 } else chans c : Channels))) :
      Except String (EngineSenderInner × Channels)).bind (fun p =>
        p.1.broadcast_engine p.2 E2)) =
      ({ inner with current_engine := E1 } : EngineSenderInner).broadcast_engine
        (fun c => if c = cid then { chans c with latest := E1 } else chans c) E2 from rfl]
  rw [EngineSenderInner.broadcast_engine_ok { inner with current_engine := E1 }
    (fun c => if c = cid then { chans c with latest := E1 } else chans c) E2 cid hs hr1]
  have hchan2 : ((fun c => if c = cid then
        { (fun c => if c = cid then { chans c with latest := E1 } else chans c : Channels) c
          with latest := E2 }
      else (fun c => if c = cid then { chans c with latest := E1 } else chans c : Channels) c) :
      Channels) =
      (fun c => if c = cid then { chans c with latest := E2 } else chans c : Channels) := by
    funext c
    by_cases hc : c = cid <;> simp [hc]
  rw [hchan2]
  have hr2 : (((fun c =>
      if c = cid then { chans c with latest := E2 } else chans c) : Channels) cid).receiver_alive =
      true := by
    simpa using hr
  rw [show (((Except.ok ({ inner with current_engine := E2 },
        (fun c => if c = cid then { chans c with latest := E2 } else chans c : Channels))) :
      Except String (EngineSenderInner × Channels)).bind (fun p =>
        p.1.broadcast_engine p.2 E3)) =
      ({ inner with current_engine := E2 } : EngineSenderInner).broadcast_engine
        (fun c => if c = cid then { chans c with latest := E2 } else chans c) E3 from rfl]
  rw [EngineSenderInner.broadcast_engine_ok { inner with current_engine := E2 }
    (fun c => if c = cid then { chans c with latest := E2 } else chans c) E3 cid hs hr2]
  have hchan3 : ((fun c => if c = cid then
        { (fun c => if c = cid then { chans c with latest := E2 } else chans c : Channels) c
          with latest := E3 }
      else (fun c => if c = cid then { chans c with latest := E2 } else chans c : Channels) c) :
      Channels) =
      (fun c => if c = cid then { chans c with latest := E3 } else chans c : Channels) := by
    funext c
    by_cases hc : c = cid <;> simp [hc]
  rw [hchan3]

/-- C1: get_engine returns Some only for a non-exhausted engine; on an
exhausted current value it re-checks each newly broadcast value; it returns
None exactly when every value it could observe before the channel closed was
exhausted; and after a sender broadcasts E1, E2, E3 before the receiver looks,
the receiver observes E3 (the watch slot retains only the most recent
engine). -/
theorem EngineReceiver.get_engine_spec (inner : EngineSenderInner) (chans : Channels)
    (cid : Nat) (E1 E2 E3 : DynEngine) (hs : inner.sender = some cid)
    (hr : (chans cid).receiver_alive = true) (h3 : E3.exhausted = false) :
    (∀ (cur : DynEngine) (ups : List DynEngine) (e : DynEngine),
      EngineReceiver.get_engine cur ups = some e → e.exhausted = false) ∧
    (∀ (cur : DynEngine) (ups : List DynEngine),
      EngineReceiver.get_engine cur ups = none ↔
        (cur :: ups).all (fun x => x.exhausted) = true) ∧
    (∀ (cur v : DynEngine) (rest : List DynEngine), cur.exhausted = true →
      EngineReceiver.get_engine cur (v :: rest) = EngineReceiver.get_engine v rest) ∧
    (∃ chans3 : Channels,
      ((inner.broadcast_engine chans E1).bind (fun p =>
          p.1.broadcast_engine p.2 E2)).bind (fun p =>
          p.1.broadcast_engine p.2 E3) =
        .ok ({ inner with current_engine := E3 }, chans3) ∧
      (chans3 cid).latest = E3 ∧
      EngineReceiver.get_engine ((chans3 cid).latest) [] = some E3) := by
  refine ⟨?_, ?_, ?_, ?_⟩
  · intro cur ups
    induction ups generalizing cur with
    | nil =>
      intro e h
      cases hcur : cur.exhausted with
      | false =>
        simp [EngineReceiver.get_engine, hcur] at h
        rw [← h]
        exact hcur
      | true => simp [EngineReceiver.get_engine, hcur] at h
    | cons v rest ih =>
      intro e h
      cases hcur : cur.exhausted with
      | false =>
        simp [EngineReceiver.get_engine, hcur] at h
        rw [← h]
        exact hcur
      | true =>
        rw [EngineReceiver.get_engine, hcur] at h
        exact ih v e (by simpa using h)
  · intro cur ups
    induction ups generalizing cur with
    | nil =>
      cases hcur : cur.exhausted with
      | false => simp [EngineReceiver.get_engine, hcur]
      | true => simp [EngineReceiver.get_engine, hcur]
    | cons v rest ih =>
      cases hcur : cur.exhausted with
      | false => simp [EngineReceiver.get_engine, hcur]
      | true =>
        rw [EngineReceiver.get_engine, hcur]
        simpa [hcur] using ih v
  · intro cur v rest hcur
    rw [EngineReceiver.get_engine, hcur]
    rfl
  · refine ⟨fun c => if c = cid then { chans c with latest := E3 } else chans c, ?_, ?_, ?_⟩
    · exact EngineSenderInner.broadcast_engine_three inner chans cid E1 E2 E3 hs hr
    · simp
    · simp [EngineReceiver.get_engine, h3]

/-- Witness for C1: a concrete sender on channel 0 broadcasts three engines;
the receiver then observes only the last (non-exhausted) one. -/
theorem EngineReceiver.get_engine_spec_witness :
    ∃ chans3 : Channels,
      (((EngineSender.create ExhaustedWork (some 0)).broadcast_engine
          (fun _ => { latest := ExhaustedWork, receiver_alive := true })
          ⟨1, true⟩).bind (fun p =>
          p.1.broadcast_engine p.2 ⟨2, true⟩)).bind (fun p =>
          p.1.broadcast_engine p.2 ⟨3, false⟩) =
        .ok ({ EngineSender.create ExhaustedWork (some 0) with
            current_engine := ⟨3, false⟩ }, chans3) ∧
      (chans3 0).latest = ⟨3, false⟩ ∧
      EngineReceiver.get_engine ((chans3 0).latest) [] = some ⟨3, false⟩ :=
  (EngineReceiver.get_engine_spec (EngineSender.create ExhaustedWork (some 0))
    (fun _ => { latest := ExhaustedWork, receiver_alive := true }) 0
    ⟨1, true⟩ ⟨2, true⟩ ⟨3, false⟩ rfl rfl rfl).2.2.2

/-- C3: broadcast_job panics (a programming-contract violation) when no engine
generator is configured; with a configured generator it broadcasts exactly the
engine the generator produces for the job: that engine becomes the current
engine and the retained channel value. -/
theorem EngineSenderInner.broadcast_job_spec (inner : EngineSenderInner) (chans : Channels)
    (job : Job) (gen : Job → DynEngine) (cid : Nat) :
    (inner.engine_generator = none →
      inner.broadcast_job chans job = .error "BUG: missing engine generator") ∧
    (inner.engine_generator = some gen →
      inner.broadcast_job chans job = inner.broadcast_engine chans (gen job) ∧
      (inner.sender = some cid → (chans cid).receiver_alive = true →
        inner.broadcast_job chans job =
          .ok ({ inner with current_engine := gen job },
            fun c => if c = cid then { chans c with latest := gen job } else chans c))) := by
  constructor
  · intro h
    simp [EngineSenderInner.broadcast_job, h]
  · intro h
    refine ⟨by simp [EngineSenderInner.broadcast_job, h], ?_⟩
    intro hs hr
    refine Eq.trans ?_ (EngineSenderInner.broadcast_engine_ok inner chans (gen job) cid hs hr)
    simp [EngineSenderInner.broadcast_job, h]

/-- Witness for C3: a directly constructed inner state with no generator
panics, while a sender built by EngineSender::create broadcasts the engine its
(default) generator produces. -/
theorem EngineSenderInner.broadcast_job_spec_witness :
    (({ engine_generator := none, current_engine := ExhaustedWork,
        sender := none } : EngineSenderInner).broadcast_job
      (fun _ => { latest := ExhaustedWork, receiver_alive := true }) sampleBlock.toJob =
        .error "BUG: missing engine generator") ∧
    ((EngineSender.create ExhaustedWork (some 0)).broadcast_job
      (fun _ => { latest := ExhaustedWork, receiver_alive := true }) sampleBlock.toJob =
        .ok ({ EngineSender.create ExhaustedWork (some 0) with
            current_engine := (fun _ => ExhaustedWork) sampleBlock.toJob },
          fun c => if c = 0 then
              { (fun _ => { latest := ExhaustedWork, receiver_alive := true } : Channels) c with
                latest := (fun _ => ExhaustedWork) sampleBlock.toJob }
            else (fun _ => { latest := ExhaustedWork, receiver_alive := true } : Channels) c)) :=
  ⟨(EngineSenderInner.broadcast_job_spec
      { engine_generator := none, current_engine := ExhaustedWork, sender := none }
      (fun _ => { latest := ExhaustedWork, receiver_alive := true }) sampleBlock.toJob
      (fun _ => ExhaustedWork) 0).1 rfl,
    (((EngineSenderInner.broadcast_job_spec (EngineSender.create ExhaustedWork (some 0))
      (fun _ => { latest := ExhaustedWork, receiver_alive := true }) sampleBlock.toJob
      (fun _ => ExhaustedWork) 0).2 rfl).2 rfl rfl)⟩

/-- C8: swap_sender on a sender with itself is rejected as a fatal
programming-contract violation; on two distinct senders it exchanges only the
watch endpoints — generators and current engines stay put — and re-broadcasts
each current engine on the newly acquired endpoint, so the subscribers of
each channel now see the current engine of the other owner. -/
theorem EngineSender.swap_sender_spec (a b : EngineSenderInner) (chans : Channels)
    (acid bcid : Nat) (hneq : acid ≠ bcid)
    (ha : a.sender = some acid) (hb : b.sender = some bcid)
    (hra : (chans acid).receiver_alive = true) (hrb : (chans bcid).receiver_alive = true) :
    (∀ (c : EngineSenderInner) (ch : Channels),
      EngineSender.swap_sender c c true ch = .error "BUG: swapping the same engine sender") ∧
    (∃ chans2 : Channels,
      EngineSender.swap_sender a b false chans =
        .ok ({ a with sender := b.sender }, { b with sender := a.sender }, chans2) ∧
      (chans2 bcid).latest = a.current_engine ∧
      (chans2 acid).latest = b.current_engine ∧
      ({ a with sender := b.sender } : EngineSenderInner).engine_generator =
        a.engine_generator ∧
      ({ a with sender := b.sender } : EngineSenderInner).current_engine =
        a.current_engine ∧
      ({ b with sender := a.sender } : EngineSenderInner).engine_generator =
        b.engine_generator ∧
      ({ b with sender := a.sender } : EngineSenderInner).current_engine =
        b.current_engine) := by
  have hneq2 : bcid ≠ acid := Ne.symm hneq
  constructor
  · intro c ch
    simp [EngineSender.swap_sender]
  · refine ⟨fun c =>
      if c = acid then
        { (if c = bcid then { chans c with latest := a.current_engine } else chans c) with
          latest := b.current_engine }
      else (if c = bcid then { chans c with latest := a.current_engine } else chans c),
      ?_, ?_, ?_, rfl, rfl, rfl, rfl⟩
    · have h1 : ({ a with sender := b.sender } : EngineSenderInner).re_broadcast chans =
          .ok (fun c =>
            if c = bcid then { chans c with latest := a.current_engine } else chans c) := by
        simp [EngineSenderInner.re_broadcast, hb, hrb]
      have h2 : ({ b with sender := a.sender } : EngineSenderInner).re_broadcast
          (fun c => if c = bcid then { chans c with latest := a.current_engine } else chans c) =
          .ok (fun c =>
            if c = acid then
              { (if c = bcid then { chans c with latest := a.current_engine } else chans c) with
                latest := b.current_engine }
            else (if c = bcid then { chans c with latest := a.current_engine } else chans c)) := by
        simp [EngineSenderInner.re_broadcast, ha, hneq, hra]
      rw [EngineSender.swap_sender]
      simp only [Bool.false_eq_true, if_false, h1, h2]
    · simp [hneq2]
    · simp

/-- Witness for C8: two concrete senders on channels 0 and 1 swap endpoints;
each channel now retains the current engine of the other owner. -/
theorem EngineSender.swap_sender_spec_witness :
    ∃ chans2 : Channels,
      EngineSender.swap_sender (EngineSender.create ⟨1, true⟩ (some 0))
          (EngineSender.create ⟨2, true⟩ (some 1)) false
          (fun _ => { latest := ExhaustedWork, receiver_alive := true }) =
        .ok ({ EngineSender.create ⟨1, true⟩ (some 0) with
            sender := (EngineSender.create ⟨2, true⟩ (some 1)).sender },
          { EngineSender.create ⟨2, true⟩ (some 1) with
            sender := (EngineSender.create ⟨1, true⟩ (some 0)).sender }, chans2) ∧
      (chans2 1).latest = (EngineSender.create ⟨1, true⟩ (some 0)).current_engine ∧
      (chans2 0).latest = (EngineSender.create ⟨2, true⟩ (some 1)).current_engine ∧
      ({ EngineSender.create ⟨1, true⟩ (some 0) with
          sender := (EngineSender.create ⟨2, true⟩ (some 1)).sender } :
        EngineSenderInner).engine_generator =
        (EngineSender.create ⟨1, true⟩ (some 0)).engine_generator ∧
      ({ EngineSender.create ⟨1, true⟩ (some 0) with
          sender := (EngineSender.create ⟨2, true⟩ (some 1)).sender } :
        EngineSenderInner).current_engine =
        (EngineSender.create ⟨1, true⟩ (some 0)).current_engine ∧
      ({ EngineSender.create ⟨2, true⟩ (some 1) with
          sender := (EngineSender.create ⟨1, true⟩ (some 0)).sender } :
        EngineSenderInner).engine_generator =
        (EngineSender.create ⟨2, true⟩ (some 1)).engine_generator ∧
      ({ EngineSender.create ⟨2, true⟩ (some 1) with
          sender := (EngineSender.create ⟨1, true⟩ (some 0)).sender } :
        EngineSenderInner).current_engine =
        (EngineSender.create ⟨2, true⟩ (some 1)).current_engine :=
  (EngineSender.swap_sender_spec (EngineSender.create ⟨1, true⟩ (some 0))
    (EngineSender.create ⟨2, true⟩ (some 1))
    (fun _ => { latest := ExhaustedWork, receiver_alive := true })
    0 1 (by decide) rfl rfl rfl rfl).2

/-- C6: the solution router forwards each dequeued solution to its resolved
origin sink, treats a failed sink delivery as fatal, drops solutions whose
origin no longer exists and continues with the rest, and terminates exactly
when the solution queue closes. -/
theorem SolutionRouter.run_spec (resolve : Solution → Option Nat) (sinkClosed : Nat → Bool)
    (s : Solution) (rest : List Solution) (sink : Nat) :
    SolutionRouter.run resolve sinkClosed [] = .ok [] ∧
    (resolve s = some sink → sinkClosed sink = false →
      SolutionRouter.run resolve sinkClosed (s :: rest) =
        (SolutionRouter.run resolve sinkClosed rest).map
          (fun evs => RouterEvent.delivered sink s :: evs)) ∧
    (resolve s = some sink → sinkClosed sink = true →
      SolutionRouter.run resolve sinkClosed (s :: rest) =
        .error "solution queue send failed") ∧
    (resolve s = none →
      SolutionRouter.run resolve sinkClosed (s :: rest) =
        (SolutionRouter.run resolve sinkClosed rest).map
          (fun evs => RouterEvent.discarded s :: evs)) := by
  refine ⟨rfl, ?_, ?_, ?_⟩
  · intro hres hopen
    simp [SolutionRouter.run, hres, hopen]
  · intro hres hclosed
    simp [SolutionRouter.run, hres, hclosed]
  · intro hres
    simp [SolutionRouter.run, hres]

/-- Witness for C6: one concrete solution delivered to sink 0, one hitting a
closed sink (panic), one discarded because its origin is gone. -/
theorem SolutionRouter.run_spec_witness :
    SolutionRouter.run (fun _ => some 0) (fun _ => false) [sampleSolution] =
      .ok [RouterEvent.delivered 0 sampleSolution] ∧
    SolutionRouter.run (fun _ => some 0) (fun _ => true) [sampleSolution] =
      .error "solution queue send failed" ∧
    SolutionRouter.run (fun _ => none) (fun _ => false) [sampleSolution] =
      .ok [RouterEvent.discarded sampleSolution] :=
  ⟨(SolutionRouter.run_spec (fun _ => some 0) (fun _ => false)
      sampleSolution [] 0).2.1 rfl rfl,
    (SolutionRouter.run_spec (fun _ => some 0) (fun _ => true)
      sampleSolution [] 0).2.2.1 rfl rfl,
    (SolutionRouter.run_spec (fun _ => none) (fun _ => false)
      sampleSolution [] 0).2.2.2 rfl⟩

/-- C9: when the weak registry reference is dead, get_root_hub returns none
and the hub/solver lookups return empty lists (never an error); when it is
alive, each lookup returns exactly the current registry contents (a value
copy, not a live view). -/
theorem Core.registry_lookup_spec (reg : Registry) :
    Core.get_root_hub none = none ∧
    Core.get_work_hubs none = [] ∧
    Core.get_work_solvers none = [] ∧
    Core.get_root_hub (some reg) = reg.root_hub ∧
    Core.get_work_hubs (some reg) = reg.work_hubs ∧
    Core.get_work_solvers (some reg) = reg.work_solvers :=
  ⟨rfl, rfl, rfl, rfl, rfl, rfl⟩

/-- C7 (amended): an assignment built by Problem::into_work with N requested
midstates has exactly N midstates, and — provided N does not exceed 2^32, the
range of the u32 version field — the midstate versions are pairwise distinct. -/
theorem Problem.into_work_spec (midstateFn : BlockHeader → Nat) (p : Problem) (N : Nat) :
    (p.into_work midstateFn N).midstates.length = N ∧
    (N ≤ 2 ^ 32 →
      ((p.into_work midstateFn N).midstates.map Midstate.version).Nodup) := by
  constructor
  · simp [Problem.into_work, Assignment.new]
  · intro hN
    simp only [Problem.into_work, Assignment.new, List.map_map]
    refine List.Nodup.map_on ?_ (List.nodup_range N)
    intro i hi j hj hij
    rw [List.mem_range] at hi hj
    have hi2 : i % 2 ^ 32 = i := Nat.mod_eq_of_lt (Nat.lt_of_lt_of_le hi hN)
    have hj2 : j % 2 ^ 32 = j := Nat.mod_eq_of_lt (Nat.lt_of_lt_of_le hj hN)
    simp only [Function.comp, hi2, hj2] at hij
    have h1 := congrArg (fun x => x ^^^ (p.target_midstate % 2 ^ 32)) hij
    simp only [Nat.xor_assoc, Nat.xor_self, Nat.xor_zero] at h1
    have h2 := congrArg (fun x => p.model_solution_job.version ^^^ x) h1
    simp only [← Nat.xor_assoc, Nat.xor_self, Nat.zero_xor] at h2
    exact h2

/-- Witness for C7 at N = 2: both midstate versions of a concrete two-midstate
assignment are distinct. -/
theorem Problem.into_work_spec_witness :
    (Problem.into_work (fun _ => 0)
      { model_solution_job := sampleBlock, target_midstate := 0 } 2).midstates.length = 2 ∧
    ((Problem.into_work (fun _ => 0)
      { model_solution_job := sampleBlock, target_midstate := 0 } 2).midstates.map
        Midstate.version).Nodup :=
  ⟨(Problem.into_work_spec (fun _ => 0)
      { model_solution_job := sampleBlock, target_midstate := 0 } 2).1,
    (Problem.into_work_spec (fun _ => 0)
      { model_solution_job := sampleBlock, target_midstate := 0 } 2).2 (by norm_num)⟩

/-- Counterexample for C7 as frozen: with midstate_count = 2^32 + 1 the u32
truncation of the index makes the versions at indices 0 and 2^32 coincide, so
the midstate versions are not pairwise distinct. -/
theorem Problem.into_work_version_collision :
    ¬ (((Problem.into_work (fun _ => 0)
        { model_solution_job := (⟨0, 0, 0, 0, 0, 0, 0, 0⟩ : TestBlock),
          target_midstate := 0 } (2 ^ 32 + 1)).midstates.map Midstate.version).Nodup) := by
  intro hnd
  rw [List.nodup_iff_getElem?_ne_getElem?] at hnd
  have hlen : ((Problem.into_work (fun _ => 0)
      { model_solution_job := (⟨0, 0, 0, 0, 0, 0, 0, 0⟩ : TestBlock),
        target_midstate := 0 } (2 ^ 32 + 1)).midstates.map Midstate.version).length =
      2 ^ 32 + 1 := by
    simp [Problem.into_work, Assignment.new]
  refine hnd 0 (2 ^ 32) (by norm_num) (by rw [hlen]; norm_num) ?_
  simp only [Problem.into_work, Assignment.new, List.map_map, List.getElem?_map,
    List.getElem?_range (by norm_num : (0 : Nat) < 2 ^ 32 + 1),
    List.getElem?_range (by norm_num : (2 ^ 32 : Nat) < 2 ^ 32 + 1)]
  norm_num

end Bosminer
